import Mathlib

/-
Verification of the I2C master-mode driver (src/src/i2c.rs) of the
stm32f7xx-hal repository, as a shallow embedding in Lean 4.

Modelling conventions:
* The f32 arithmetic used in `init` is modelled exactly over ℚ.  The two
  places where f32 semantics differ from a total field (division by zero
  yielding a non-finite value that fails the Rust range patterns
  `0.0..=256.0` and `0.0..=16.0`) are modelled by explicit guards, each
  marked with a comment.
* Rust `u8` arithmetic is checked (a debug build): `x - 1` on `x = 0u8`
  aborts.  A computation that aborts (assertion failure or arithmetic
  underflow) is modelled as `none`.
* The memory-mapped peripheral is modelled by the observable trace of
  register writes (`Event`) plus a script of poll outcomes (`WaitEntry`)
  resolving each blocking wait; `check_status_flag` is the exact pure
  translation of the classification macro of the same name.
-/

namespace I2cHal

/-! ## Timing derivation (`I2c::init`, Standard mode) -/

/-- Timing-register fields written by `init`: TIMINGR.PRESC, SCLL, SCLH,
SDADEL, SCLDEL. -/
structure TimingFields where
  presc : Nat
  scll : Nat
  sclh : Nat
  sdadel : Nat
  scldel : Nat
deriving DecidableEq

/-- Source: `let base_clk_mhz: f32 = self.pclk as f32 / 1_000_000.0;`. -/
def baseClkMhz (pclk : Nat) : ℚ := (pclk : ℚ) / 1000000

/-- Source: `let target_freq_mhz: f32 = self.mode.get_frequency().0 as f32 / 1_000_000.0;`. -/
def targetFreqMhz (freq : Nat) : ℚ := (freq : ℚ) / 1000000

/-- Rust `as u8` on an f32 holding a nonnegative integral value: the cast
saturates at the bounds of the target type. -/
def u8SatCast (n : ℤ) : Nat := (min n 255).toNat

/-- The SCLL derivation of `init` (Standard-mode branch):

    let scll = (base_clk_mhz / (2.0 * (target_freq_mhz))).ceil();
    let scll: u8 = match scll {
        0.0..=256.0 => scll as u8 - 1,
        _ => 255,
    };

`none` models the abort of `scll as u8 - 1` when the cast yields `0u8`
(checked u8 underflow).  When `target = 0`, the f32 division yields a
non-finite value (∞ or NaN) which fails the `0.0..=256.0` range pattern,
so the catch-all arm gives 255; that path is modelled by the explicit
guard below. -/
def scllField (pclk target : Nat) : Option Nat :=
  if target = 0 then
    some 255
  else
    let scllCeil : ℤ := ⌈baseClkMhz pclk / (2 * targetFreqMhz target)⌉
    if 0 ≤ scllCeil ∧ scllCeil ≤ 256 then
      let s := u8SatCast scllCeil
      if s = 0 then none else some (s - 1)
    else
      some 255

/-- The prescaler derivation of `init` (Standard-mode branch):

    let presc = base_clk_mhz / fscll_mhz;
    let presc: u8 = match presc {
        0.0..=16.0 => sclh as u8 - 1,
        _ => 15,
    };

with `fscll_mhz = base_clk_mhz / (scll as f32 + 1.0)`.  Note the in-range
arm reads `sclh as u8 - 1`, not a value derived from `presc`; `none`
models the abort of that subtraction when `sclh = 0`.  The `pclk = 0`
guard models the f32 value `0.0 / 0.0 = NaN`, which fails the
`0.0..=16.0` range pattern so the catch-all arm gives 15. -/
def prescField (pclk scll sclh : Nat) : Option Nat :=
  if pclk = 0 then
    some 15
  else
    let fscllMhz : ℚ := baseClkMhz pclk / ((scll : ℚ) + 1)
    let prescRatio : ℚ := baseClkMhz pclk / fscllMhz
    if 0 ≤ prescRatio ∧ prescRatio ≤ 16 then
      if sclh = 0 then none else some (sclh - 1)
    else
      some 15

/-- Shallow embedding of `I2c::init` (Standard-mode branch), f32 arithmetic
modelled exactly over ℚ.  The source binds `sclh = scll` (symmetric duty),
derives the prescaler, and writes PRESC/SCLL/SCLH together with the fixed
delays `sdadel = 2`, `scldel = 4` to TIMINGR.  `none` models an abort
(checked u8 underflow). -/
def init (pclk target : Nat) : Option TimingFields :=
  match scllField pclk target with
  | none => none
  | some scll =>
    match prescField pclk scll scll with
    | none => none
    | some presc => some ⟨presc, scll, scll, 2, 4⟩

/-- Modelled from the spec: the SCL frequency (in Hz) implied by the written
(presc, scll, sclh) fields.  With symmetric low/high halves the SCL period
is (presc + 1) × ((scll + 1) + (sclh + 1)) input-clock periods; this
hardware interpretation of TIMINGR is not itself code under src/. -/
def impliedSclHz (pclk : Nat) (f : TimingFields) : ℚ :=
  (pclk : ℚ) / (((f.presc : ℚ) + 1) * (((f.scll : ℚ) + 1) + ((f.sclh : ℚ) + 1)))

/-- Achieved frequency `f` is within 10 percent of `target`. -/
def within10Pct (f target : ℚ) : Prop := |f - target| * 10 ≤ target

/-! ## Error type and status classification (`check_status_flag!`) -/

/-- The `Error` enum of the driver; the hidden `_Extensible` variant is
named `Extensible` here. -/
inductive Error where
  | Bus
  | Arbitration
  | Acknowledge
  | Overrun
  | Busy
  | Extensible
deriving DecidableEq

/-- One read of the ISR status register: the four error latches and the
three readiness flags the driver polls (TXIS, RXNE, TC). -/
structure Isr where
  berr : Bool
  arlo : Bool
  nackf : Bool
  ovr : Bool
  txis : Bool
  rxne : Bool
  tc : Bool
deriving DecidableEq

/-- One write to the ICR flag-clear register: which latches are cleared. -/
structure Icr where
  berrcf : Bool
  arlocf : Bool
  nackcf : Bool
  ovrcf : Bool
  stopcf : Bool
deriving DecidableEq

/-- Result of one `check_status_flag!` classification. -/
inductive ChkRes where
  | ok
  | err (e : Error)
  | wouldBlock
deriving DecidableEq

/-- Exact translation of the `check_status_flag!` macro: classify one ISR
read in the order BERR, ARLO, NACKF, OVR, requested flag; the second
component is the ICR write performed (`none` when no ICR write happens). -/
def check_status_flag (isr : Isr) (flag : Isr → Bool) : ChkRes × Option Icr :=
  if isr.berr then
    (.err .Bus, some ⟨true, false, false, false, false⟩)
  else if isr.arlo then
    (.err .Arbitration, some ⟨false, true, false, false, false⟩)
  else if isr.nackf then
    (.err .Acknowledge, some ⟨false, false, true, false, true⟩)
  else if isr.ovr then
    (.err .Overrun, some ⟨false, false, false, true, true⟩)
  else if flag isr then
    (.ok, none)
  else
    (.wouldBlock, none)

/-! ## The busy-wait loop (`busy_wait!` / `busy_wait_cycles!`) -/

/-- Rust `u32::wrapping_sub` on cycle-counter reads. -/
def wrapSub32 (a b : Nat) : Nat := (a % 2 ^ 32 + (2 ^ 32 - b % 2 ^ 32)) % 2 ^ 32

/-- Shallow embedding of `busy_wait_cycles!`: poll `i` yields `chk i`, the
DWT cycle counter read at poll `i` is `cnt i`, `started` is the counter
read before the loop, `budget` is `$cycles`.  The loop body first breaks
on any non-WouldBlock result, then breaks (with the WouldBlock result)
once `cnt(i).wrapping_sub(started) >= budget`.  `fuel` bounds the number
of polls modelled; `none` means the loop was still running after `fuel`
polls. -/
def busyWaitCycles (chk : Nat → ChkRes) (cnt : Nat → Nat)
    (started budget : Nat) : Nat → Nat → Option ChkRes
  | _, 0 => none
  | i, fuel + 1 =>
    match chk i with
    | .wouldBlock =>
      if budget ≤ wrapSub32 (cnt i) started then some .wouldBlock
      else busyWaitCycles chk cnt started budget (i + 1) fuel
    | r => some r

/-! ## Blocking operations over a wait script -/

/-- Observable register-level actions of the driver: the atomic CR2 START
write, TXDR data-port writes, RXDR data-port reads, the transfer-complete
wait, and an explicit STOP request (which no code path of this driver
ever issues). -/
inductive Event where
  | start (addr nbytes : Nat) (read autoStop : Bool)
  | txdrWrite (b : Nat)
  | rxdrRead
  | tcWait
  | stop
deriving DecidableEq

/-- The `nb` error layer: a terminal driver error or `WouldBlock`. -/
inductive NbErr where
  | other (e : Error)
  | wouldBlock
deriving DecidableEq

/-- Result of one public operation (`Result<(), Self::Error>`). -/
inductive OpRes where
  | ok
  | error (e : NbErr)
deriving DecidableEq

/-- Resolution of one blocking wait, supplied by the environment: either
the ISR read that ended the polling, or exhaustion of the cycle budget
while the flag stayed unready. -/
inductive WaitEntry where
  | isr (i : Isr)
  | timeout
deriving DecidableEq

/-- Environment script (wait resolutions still to consume) plus the event
trace accumulated so far. -/
structure St where
  script : List WaitEntry
  events : List Event
deriving DecidableEq

/-- Append one observable event. -/
def emit (e : Event) (s : St) : St := ⟨s.script, s.events ++ [e]⟩

/-- Consume the next wait resolution; an exhausted script behaves like a
timeout. -/
def takeEntry (s : St) : WaitEntry × St :=
  match s.script with
  | [] => (.timeout, s)
  | e :: rest => (e, ⟨rest, s.events⟩)

/-- Resolved result of one `busy_wait_cycles!(check_status_flag!(_, flag))`
wait: a `timeout` entry yields WouldBlock (budget exhausted), an ISR entry
whose classification is WouldBlock likewise (the budget ran out while
retrying), otherwise the classification of the resolving ISR read. -/
def waitFlag (flag : Isr → Bool) (s : St) : ChkRes × St :=
  match takeEntry s with
  | (.timeout, s1) => (.wouldBlock, s1)
  | (.isr i, s1) =>
    match (check_status_flag i flag).1 with
    | .wouldBlock => (.wouldBlock, s1)
    | r => (r, s1)

/-- `BlockingI2c::wait_byte_write`: wait for TXIS, then write the byte to
TXDR. -/
def wait_byte_write (byte : Nat) (s : St) : ChkRes × St :=
  match waitFlag (fun i => i.txis) s with
  | (.ok, s1) => (.ok, emit (.txdrWrite byte) s1)
  | r => r

/-- `BlockingI2c::wait_byte_read`: wait for RXNE, then read RXDR. -/
def wait_byte_read (s : St) : ChkRes × St :=
  match waitFlag (fun i => i.rxne) s with
  | (.ok, s1) => (.ok, emit .rxdrRead s1)
  | r => r

/-- The `for byte in bytes { self.wait_byte_write(*byte)?; }` loop; the
first classified error aborts the remainder via `?`. -/
def write_bytes (bytes : List Nat) (s : St) : OpRes × St :=
  match bytes with
  | [] => (.ok, s)
  | b :: bs =>
    match wait_byte_write b s with
    | (.ok, s1) => write_bytes bs s1
    | (.err e, s1) => (.error (.other e), s1)
    | (.wouldBlock, s1) => (.error .wouldBlock, s1)

/-- The `for byte in buffer { *byte = self.wait_byte_read()?; }` loop,
tracked by the buffer length. -/
def read_bytes (n : Nat) (s : St) : OpRes × St :=
  match n with
  | 0 => (.ok, s)
  | m + 1 =>
    match wait_byte_read s with
    | (.ok, s1) => read_bytes m s1
    | (.err e, s1) => (.error (.other e), s1)
    | (.wouldBlock, s1) => (.error .wouldBlock, s1)

/-- `Write::write` for `BlockingI2c`.  `none` models the abort of
`assert!(bytes.len() < 256 && bytes.len() > 0)`, which runs before
`wait_start` (a CR2 read) and the CR2 START write. -/
def write (addr : Nat) (bytes : List Nat) (s : St) : Option (OpRes × St) :=
  if bytes.length < 256 ∧ 0 < bytes.length then
    let s1 := emit (.start addr bytes.length false true) s
    some (write_bytes bytes s1)
  else
    none

/-- `Read::read` for `BlockingI2c`; the buffer is tracked by its length
`len`. -/
def read (addr : Nat) (len : Nat) (s : St) : Option (OpRes × St) :=
  if len < 256 ∧ 0 < len then
    let s1 := emit (.start addr len true true) s
    some (read_bytes len s1)
  else
    none

/-- `WriteRead::write_read` for `BlockingI2c`: both asserts, then START
with direction Write and software (non-automatic) STOP, the payload
writes, the TC wait, the repeated START with direction Read and automatic
STOP, and the payload reads. -/
def write_read (addr : Nat) (bytes : List Nat) (len : Nat) (s : St) :
    Option (OpRes × St) :=
  if bytes.length < 256 ∧ 0 < bytes.length then
    if len < 256 ∧ 0 < len then
      let s1 := emit (.start addr bytes.length false false) s
      match write_bytes bytes s1 with
      | (.ok, s2) =>
        let s3 := emit .tcWait s2
        match waitFlag (fun i => i.tc) s3 with
        | (.ok, s4) =>
          let s5 := emit (.start addr len true true) s4
          some (read_bytes len s5)
        | (.err e, s4) => some (.error (.other e), s4)
        | (.wouldBlock, s4) => some (.error .wouldBlock, s4)
      | (r, s2) => some (r, s2)
    else
      none
  else
    none

/-- An ISR read with no error latch set and every readiness flag set: the
resolution of a wait in which everything succeeds. -/
def readyIsr : Isr := ⟨false, false, false, false, true, true, true⟩

/-- An ISR read with the NACKF latch set (and no higher-priority latch). -/
def nackIsr : Isr := ⟨false, false, true, false, false, false, false⟩

/-- A classification result lies in the reachable surface unless it is the
`Busy` or `Extensible` error. -/
def chkInSurface : ChkRes → Bool
  | .err .Busy => false
  | .err .Extensible => false
  | _ => true

/-- An operation result lies in the documented surface unless it is the
`Busy` or `Extensible` error. -/
def opInSurface : OpRes → Bool
  | .error (.other .Busy) => false
  | .error (.other .Extensible) => false
  | _ => true

/-- Surface check lifted to a whole operation outcome (an assertion abort
is not a returned value). -/
def resultInSurface : Option (OpRes × St) → Bool
  | none => true
  | some (r, _) => opInSurface r

/-! ## Construction of the blocking transport -/

/-- The clock-tree collaborator (`Clocks`): system core clock and the APB1
bus clock feeding both I2C peripherals. -/
structure Clocks where
  sysclk : Nat
  pclk1 : Nat
deriving DecidableEq

/-- `<I2CX as RccBus>::Bus::get_frequency(&clocks)`: I2C1 and I2C2 sit on
APB1. -/
def get_bus_frequency (clocks : Clocks) : Nat := clocks.pclk1

/-- The non-blocking `I2c` object: mode frequency and the stored peripheral
bus clock. -/
structure I2cM where
  mode_freq : Nat
  pclk : Nat
deriving DecidableEq

/-- `I2c::_i2c1` / `_i2c2` (Standard mode): fetch the APB1 frequency,
assert the mode frequency bound, run `init`.  `none` models an abort
(failed assert or an abort inside `init`). -/
def i2cX (mode_freq : Nat) (clocks : Clocks) : Option I2cM :=
  let pclk := get_bus_frequency clocks
  if mode_freq ≤ 400000 then
    match init pclk mode_freq with
    | none => none
    | some _ => some ⟨mode_freq, pclk⟩
  else
    none

/-- The blocking transport: the wrapped `I2c` plus the cycle budget. -/
structure BlockingI2cM where
  nb : I2cM
  data_timeout : Nat
deriving DecidableEq

/-- `blocking_i2c`: the budget is `data_timeout_us * sysclk_mhz` with
`sysclk_mhz = clocks.sysclk().0 / 1_000_000` (integer division). -/
def blocking_i2c (i2c : I2cM) (clocks : Clocks) (data_timeout_us : Nat) :
    BlockingI2cM :=
  ⟨i2c, data_timeout_us * (clocks.sysclk / 1000000)⟩

/-! ## Helper lemmas -/

/-- The MHz conversions cancel in the SCLL ratio. -/
theorem ratio_eq (pclk target : Nat) :
    baseClkMhz pclk / (2 * targetFreqMhz target) = (pclk : ℚ) / (2 * (target : ℚ)) := by
  unfold baseClkMhz targetFreqMhz
  rcases eq_or_ne (target : ℚ) 0 with h | h
  · simp [h]
  · field_simp

/-- A TXIS wait resolved by an all-ready ISR read succeeds and writes the
byte to TXDR. -/
theorem wait_byte_write_ready (b : Nat) (rest : List WaitEntry) (evs : List Event) :
    wait_byte_write b ⟨WaitEntry.isr readyIsr :: rest, evs⟩ =
      (.ok, ⟨rest, evs ++ [Event.txdrWrite b]⟩) := rfl

/-- An RXNE wait resolved by an all-ready ISR read succeeds and reads RXDR. -/
theorem wait_byte_read_ready (rest : List WaitEntry) (evs : List Event) :
    wait_byte_read ⟨WaitEntry.isr readyIsr :: rest, evs⟩ =
      (.ok, ⟨rest, evs ++ [Event.rxdrRead]⟩) := rfl

/-- A TC wait resolved by an all-ready ISR read succeeds. -/
theorem waitFlag_tc_ready (rest : List WaitEntry) (evs : List Event) :
    waitFlag (fun i => i.tc) ⟨WaitEntry.isr readyIsr :: rest, evs⟩ = (.ok, ⟨rest, evs⟩) := rfl

/-- Under an all-ready script, the write loop consumes one entry per byte
and emits exactly one TXDR write per byte, in order. -/
theorem write_bytes_ready (bytes : List Nat) :
    ∀ (k : Nat) (evs : List Event),
      write_bytes bytes ⟨List.replicate (bytes.length + k) (WaitEntry.isr readyIsr), evs⟩ =
        (.ok, ⟨List.replicate k (WaitEntry.isr readyIsr), evs ++ bytes.map Event.txdrWrite⟩) := by
  induction bytes with
  | nil => intro k evs; simp [write_bytes]
  | cons b bs ih =>
    intro k evs
    rw [show (b :: bs).length + k = (bs.length + k) + 1 by simp; omega, List.replicate_succ]
    rw [write_bytes, wait_byte_write_ready]
    show write_bytes bs _ = _
    rw [ih k (evs ++ [Event.txdrWrite b])]
    simp

/-- Under an all-ready script, the read loop consumes one entry per byte
and emits exactly one RXDR read per byte. -/
theorem read_bytes_ready (n : Nat) :
    ∀ (k : Nat) (evs : List Event),
      read_bytes n ⟨List.replicate (n + k) (WaitEntry.isr readyIsr), evs⟩ =
        (.ok, ⟨List.replicate k (WaitEntry.isr readyIsr), evs ++ List.replicate n Event.rxdrRead⟩) := by
  induction n with
  | zero => intro k evs; simp [read_bytes]
  | succ m ih =>
    intro k evs
    rw [show m + 1 + k = (m + k) + 1 by omega, List.replicate_succ]
    rw [read_bytes, wait_byte_read_ready]
    show read_bytes m _ = _
    rw [ih k (evs ++ [Event.rxdrRead])]
    simp [List.replicate_succ]

/-- If every poll classifies as WouldBlock and some poll index in range
satisfies the exit condition, the busy wait terminates with the WouldBlock
result. -/
theorem busyWait_block_exit (chk : Nat → ChkRes) (cnt : Nat → Nat)
    (started budget : Nat) :
    ∀ (fuel i j : Nat), (∀ n, chk n = .wouldBlock) → i ≤ j → j < i + fuel →
      budget ≤ wrapSub32 (cnt j) started →
      busyWaitCycles chk cnt started budget i fuel = some .wouldBlock := by
  intro fuel
  induction fuel with
  | zero => intro i j _ h1 h2 _; omega
  | succ f ih =>
    intro i j hb h1 h2 hex
    rw [busyWaitCycles, hb i]
    by_cases hc : budget ≤ wrapSub32 (cnt i) started
    · rw [if_pos hc]
    · rw [if_neg hc]
      have hne : i ≠ j := fun h => hc (h ▸ hex)
      exact ih (i + 1) j hb (by omega) (by omega) hex

/-- A first-byte wait that times out makes `write` return WouldBlock with
no data-port write performed. -/
theorem write_timeout (addr b1 : Nat) (bytes : List Nat) (rest : List WaitEntry)
    (h : bytes.length < 255) :
    write addr (b1 :: bytes) ⟨WaitEntry.timeout :: rest, []⟩ =
      some (.error .wouldBlock,
        ⟨rest, [Event.start addr (bytes.length + 1) false true]⟩) := by
  rw [write, if_pos (by simp; omega)]
  simp [emit, write_bytes, wait_byte_write, waitFlag, takeEntry]

/-- Every classification result is in the reachable surface. -/
theorem check_status_flag_surface (i : Isr) (flag : Isr → Bool) :
    chkInSurface (check_status_flag i flag).1 = true := by
  rw [check_status_flag]
  split_ifs <;> rfl

/-- Surface membership transfers between the classification layer and the
operation-result layer. -/
theorem chk_op_surface (e : Error) :
    chkInSurface (ChkRes.err e) = opInSurface (OpRes.error (NbErr.other e)) := by
  cases e <;> rfl

/-- Every resolved wait result is in the reachable surface. -/
theorem waitFlag_surface (flag : Isr → Bool) (s : St) :
    chkInSurface (waitFlag flag s).1 = true := by
  rcases ht : takeEntry s with ⟨we, s1⟩
  rw [waitFlag, ht]
  cases we with
  | timeout => rfl
  | isr i =>
    have hs := check_status_flag_surface i flag
    cases hc : (check_status_flag i flag).1 with
    | ok => simp [hc, chkInSurface]
    | wouldBlock => simp [hc, chkInSurface]
    | err e =>
      rw [hc] at hs
      simp [hc, hs]

/-- Any error produced by a byte-write wait is in the reachable surface. -/
theorem wait_byte_write_surface (b : Nat) (s : St) (e : Error)
    (h : (wait_byte_write b s).1 = ChkRes.err e) :
    opInSurface (OpRes.error (NbErr.other e)) = true := by
  have hs := waitFlag_surface (fun i => i.txis) s
  rw [wait_byte_write] at h
  rcases hw : waitFlag (fun i => i.txis) s with ⟨r, s1⟩
  rw [hw] at h hs
  cases r with
  | ok => simp at h
  | wouldBlock => simp at h
  | err e2 =>
    simp at h
    subst h
    rw [← chk_op_surface]
    exact hs

/-- Any error produced by a byte-read wait is in the reachable surface. -/
theorem wait_byte_read_surface (s : St) (e : Error)
    (h : (wait_byte_read s).1 = ChkRes.err e) :
    opInSurface (OpRes.error (NbErr.other e)) = true := by
  have hs := waitFlag_surface (fun i => i.rxne) s
  rw [wait_byte_read] at h
  rcases hw : waitFlag (fun i => i.rxne) s with ⟨r, s1⟩
  rw [hw] at h hs
  cases r with
  | ok => simp at h
  | wouldBlock => simp at h
  | err e2 =>
    simp at h
    subst h
    rw [← chk_op_surface]
    exact hs

/-- The write loop only produces surface results. -/
theorem write_bytes_surface (bytes : List Nat) :
    ∀ s : St, opInSurface (write_bytes bytes s).1 = true := by
  induction bytes with
  | nil => intro s; rfl
  | cons b bs ih =>
    intro s
    rw [write_bytes]
    rcases hw : wait_byte_write b s with ⟨r, s1⟩
    cases r with
    | ok => exact ih s1
    | wouldBlock => rfl
    | err e => exact wait_byte_write_surface b s e (by rw [hw])

/-- The read loop only produces surface results. -/
theorem read_bytes_surface (n : Nat) :
    ∀ s : St, opInSurface (read_bytes n s).1 = true := by
  induction n with
  | zero => intro s; rfl
  | succ m ih =>
    intro s
    rw [read_bytes]
    rcases hw : wait_byte_read s with ⟨r, s1⟩
    cases r with
    | ok => exact ih s1
    | wouldBlock => rfl
    | err e => exact wait_byte_read_surface s e (by rw [hw])

/-! ## Claim theorems -/

/-- C1: the Standard-mode timing derivation does not keep the implied SCL
frequency within 10 percent of the target.  At the plausible pair
busClock = 8 MHz, target = 100 kHz (the spec's own scenario), `init`
writes presc = 15, scll = sclh = 39, whose implied SCL frequency is
6250 Hz — 93.75 percent below the 100 kHz target, far outside the claimed
10 percent tolerance.  (The field-range part of the claim does hold here:
scll, sclh ∈ [0,255] and presc ∈ [0,15].) -/
theorem timing_presc_defect :
    init 8000000 100000 = some ⟨15, 39, 39, 2, 4⟩ ∧
    impliedSclHz 8000000 ⟨15, 39, 39, 2, 4⟩ = 6250 ∧
    ¬ within10Pct (impliedSclHz 8000000 ⟨15, 39, 39, 2, 4⟩) 100000 := by
  have himp : impliedSclHz 8000000 ⟨15, 39, 39, 2, 4⟩ = 6250 := by
    unfold impliedSclHz
    norm_num
  refine ⟨?_, himp, ?_⟩
  · unfold init scllField prescField
    norm_num [baseClkMhz, targetFreqMhz, u8SatCast]
    all_goals simp
  · intro hcl
    unfold within10Pct at hcl
    rw [himp] at hcl
    rw [show (6250 : ℚ) - 100000 = -93750 by norm_num, abs_neg,
      abs_of_nonneg (by norm_num)] at hcl
    norm_num at hcl

/-- C2 counterexample: at busClock = 128 MHz, target = 250 kHz the ceiling
is exactly 256, so the claimed value ceil − 1 = 255 (no saturation needed,
255 fits the 8-bit field), but the code saturates the u8 cast before the
subtraction and writes scll = 254. -/
theorem scll_ceiling_256_counterexample :
    init 128000000 250000 = some ⟨15, 254, 254, 2, 4⟩ ∧
    ⌈(128000000 : ℚ) / (2 * (250000 : ℚ))⌉ - 1 = 255 ∧ (254 : ℤ) ≠ 255 := by
  refine ⟨?_, by norm_num, by norm_num⟩
  unfold init scllField prescField
  norm_num [baseClkMhz, targetFreqMhz, u8SatCast]
  all_goals simp

/-- C2 (amended): for target ≠ 0, the SCL-low field is
min(ceil(busClock / (2 × target)), 255) − 1 whenever the ceiling lies in
[1, 256] (the u8 cast saturates before the − 1, so a ceiling of 256 gives
254), is 255 whenever the ceiling exceeds 256, and the derivation aborts
when the ceiling is 0; the SCL-high field always equals the SCL-low
field. -/
theorem scll_derivation_amended :
    (∀ pclk target : Nat, target ≠ 0 →
      (⌈(pclk : ℚ) / (2 * (target : ℚ))⌉ = 0 → scllField pclk target = none) ∧
      (1 ≤ ⌈(pclk : ℚ) / (2 * (target : ℚ))⌉ → ⌈(pclk : ℚ) / (2 * (target : ℚ))⌉ ≤ 256 →
        scllField pclk target =
          some ((min ⌈(pclk : ℚ) / (2 * (target : ℚ))⌉ 255 - 1).toNat)) ∧
      (256 < ⌈(pclk : ℚ) / (2 * (target : ℚ))⌉ → scllField pclk target = some 255)) ∧
    (∀ (pclk target : Nat) (f : TimingFields), init pclk target = some f → f.sclh = f.scll) := by
  constructor
  · intro pclk target ht
    rw [scllField, if_neg ht, ratio_eq]
    refine ⟨?_, ?_, ?_⟩
    · intro h0
      rw [h0]
      norm_num [u8SatCast]
    · intro hge hle
      rw [if_pos ⟨by omega, hle⟩]
      rw [if_neg (by unfold u8SatCast; omega)]
      unfold u8SatCast
      congr 1
      omega
    · intro hgt
      rw [if_neg (by omega)]
  · intro pclk target f h
    cases hq : scllField pclk target with
    | none =>
      simp only [init, hq] at h
      exact Option.noConfusion h
    | some scll =>
      simp only [init, hq, prescField] at h
      split_ifs at h with h0 h1 h2
      · injection h with h3
        subst h3
        rfl
      · injection h with h3
        subst h3
        rfl
      · injection h with h3
        subst h3
        rfl

/-- C2 witness: concrete instances of the amended claim — a zero ceiling
aborts (busClock = 0, target = 1), and a successful `init` has equal
SCL-high and SCL-low fields. -/
theorem scll_derivation_amended_witness :
    scllField 0 1 = none ∧
    (⟨15, 255, 255, 2, 4⟩ : TimingFields).sclh = (⟨15, 255, 255, 2, 4⟩ : TimingFields).scll :=
  ⟨(scll_derivation_amended.1 0 1 (by decide)).1 (by simp),
   scll_derivation_amended.2 0 0 ⟨15, 255, 255, 2, 4⟩ rfl⟩

/-- C3 counterexample: a status word with the bus-error, no-ack, and
overrun latches all set is classified as the Bus error, not the
Acknowledge error, refuting the claim's universal statement about any
status with the no-ack and overrun latches set. -/
theorem classify_priority_counterexample :
    (check_status_flag ⟨true, false, true, true, false, false, false⟩ (fun i => i.txis)).1 =
      ChkRes.err Error.Bus ∧
    ChkRes.err Error.Bus ≠ ChkRes.err Error.Acknowledge := by
  decide

/-- C3 (amended): classification follows the fixed priority order
busError > arbitrationLoss > noAck > overrun > readiness flag; in
particular for any status with the no-ack latch set and bus-error and
arbitration-loss clear (whether or not overrun is also set), the result
is the Acknowledge error and exactly the NACK and STOP latches are
cleared. -/
theorem classify_priority_amended :
    ∀ (i : Isr) (flag : Isr → Bool),
      (i.berr = true → (check_status_flag i flag).1 = .err .Bus) ∧
      (i.berr = false → i.arlo = true → (check_status_flag i flag).1 = .err .Arbitration) ∧
      (i.berr = false → i.arlo = false → i.nackf = true →
        check_status_flag i flag = (.err .Acknowledge, some ⟨false, false, true, false, true⟩)) ∧
      (i.berr = false → i.arlo = false → i.nackf = false → i.ovr = true →
        check_status_flag i flag = (.err .Overrun, some ⟨false, false, false, true, true⟩)) ∧
      (i.berr = false → i.arlo = false → i.nackf = false → i.ovr = false → flag i = true →
        (check_status_flag i flag).1 = .ok) ∧
      (i.berr = false → i.arlo = false → i.nackf = false → i.ovr = false → flag i = false →
        (check_status_flag i flag).1 = .wouldBlock) := by
  intro i flag
  refine ⟨?_, ?_, ?_, ?_, ?_, ?_⟩ <;> intros <;> simp [check_status_flag, *]

/-- C3 witness: with both the no-ack and overrun latches set and the two
higher-priority latches clear, classification yields Acknowledge and
clears exactly the NACK and STOP latches. -/
theorem classify_priority_amended_witness :
    check_status_flag ⟨false, false, true, true, false, false, false⟩ (fun i => i.rxne) =
      (.err .Acknowledge, some ⟨false, false, true, false, true⟩) :=
  (classify_priority_amended ⟨false, false, true, true, false, false, false⟩
    (fun i => i.rxne)).2.2.1 rfl rfl rfl

/-- C4: when every wait succeeds, `write_read` performs exactly one START
(direction Write, autoStop false), one TXDR write per payload byte, the
transfer-complete wait, a second START (direction Read, autoStop true),
and one RXDR read per buffer byte; no STOP is issued anywhere in the
trace — the terminal STOP is left to the hardware auto-stop of the second
START. -/
theorem write_read_sequence (addr : Nat) (bytes : List Nat) (len : Nat)
    (h1 : 0 < bytes.length) (h2 : bytes.length < 256)
    (h3 : 0 < len) (h4 : len < 256) :
    write_read addr bytes len
        ⟨List.replicate (bytes.length + 1 + len) (WaitEntry.isr readyIsr), []⟩ =
      some (.ok, ⟨[], Event.start addr bytes.length false false ::
        (bytes.map Event.txdrWrite ++ Event.tcWait :: Event.start addr len true true ::
          List.replicate len Event.rxdrRead)⟩) ∧
    Event.stop ∉ (Event.start addr bytes.length false false ::
        (bytes.map Event.txdrWrite ++ Event.tcWait :: Event.start addr len true true ::
          List.replicate len Event.rxdrRead)) := by
  constructor
  · rw [write_read, if_pos ⟨h2, h1⟩, if_pos ⟨h4, h3⟩,
      show bytes.length + 1 + len = bytes.length + (len + 1) by omega]
    simp only [emit, List.nil_append]
    rw [write_bytes_ready bytes (len + 1) [Event.start addr bytes.length false false]]
    have hrb : ∀ evs, read_bytes len ⟨List.replicate len (WaitEntry.isr readyIsr), evs⟩
        = (.ok, ⟨[], evs ++ List.replicate len Event.rxdrRead⟩) := by
      intro evs
      have h0 := read_bytes_ready len 0 evs
      simpa using h0
    simp only [List.replicate_succ, waitFlag_tc_ready, emit, hrb]
    simp
  · intro hmem
    simp at hmem

/-- C4 witness: `write_read(0x50, [1, 2], buffer[2])` under an all-ready
script produces exactly the claimed event sequence with no STOP. -/
theorem write_read_sequence_witness :
    write_read 80 [1, 2] 2 ⟨List.replicate 5 (WaitEntry.isr readyIsr), []⟩ =
      some (.ok, ⟨[], Event.start 80 2 false false ::
        ([1, 2].map Event.txdrWrite ++ Event.tcWait :: Event.start 80 2 true true ::
          List.replicate 2 Event.rxdrRead)⟩) ∧
    Event.stop ∉ (Event.start 80 2 false false ::
        ([1, 2].map Event.txdrWrite ++ Event.tcWait :: Event.start 80 2 true true ::
          List.replicate 2 Event.rxdrRead)) :=
  write_read_sequence 80 [1, 2] 2 (by decide) (by decide) (by decide) (by decide)

/-- C5 counterexample: with sysclk = 216 MHz and APB1 (the I2C input
clock) = 54 MHz, a 1000 µs timeout yields the stored budget
1000 × 216 = 216000 cycles, not 1000 × 54 = 54000 as the claim's reading
of the peripheral bus clock would give — the code reads `clocks.sysclk()`,
not the clock the clock-tree collaborator supplies for the peripheral. -/
theorem timeout_clock_counterexample :
    i2cX 100000 ⟨216000000, 54000000⟩ = some ⟨100000, 54000000⟩ ∧
    (blocking_i2c ⟨100000, 54000000⟩ ⟨216000000, 54000000⟩ 1000).data_timeout = 216000 ∧
    1000 * (get_bus_frequency ⟨216000000, 54000000⟩ / 1000000) = 54000 ∧
    (216000 : Nat) ≠ 54000 := by
  refine ⟨?_, by norm_num [blocking_i2c], by norm_num [get_bus_frequency], by norm_num⟩
  have h54 : init 54000000 100000 = some ⟨15, 255, 255, 2, 4⟩ := by
    unfold init scllField prescField
    norm_num [baseClkMhz, targetFreqMhz, u8SatCast]
  simp only [i2cX, get_bus_frequency, h54]
  norm_num

/-- C5 (amended): the timeout budget stored at construction equals
timeout_us × (sysclk / 1 000 000), where sysclk is the system core clock
(the clock the DWT cycle counter runs at), not the peripheral's APB bus
clock; this stored field is the single budget every blocking wait
consults. -/
theorem timeout_budget_amended (i2c : I2cM) (clocks : Clocks) (us : Nat) :
    (blocking_i2c i2c clocks us).data_timeout = us * (clocks.sysclk / 1000000) := rfl

/-- C6: if every poll of a blocking wait classifies as WouldBlock (flag
never ready, no error latch set), the busy-wait loop stops at any poll
whose wrap-safe elapsed cycle count has reached the budget and the result
is the WouldBlock error — delivered through the same error channel as a
protocol error, with no panic path; and a timed-out first wait makes the
enclosing `write` return the WouldBlock failure to its caller. -/
theorem busy_wait_timeout :
    (∀ (chk : Nat → ChkRes) (cnt : Nat → Nat) (started budget fuel j : Nat),
      (∀ n, chk n = .wouldBlock) → j < fuel → budget ≤ wrapSub32 (cnt j) started →
      busyWaitCycles chk cnt started budget 0 fuel = some .wouldBlock) ∧
    (∀ (addr b1 : Nat) (bytes : List Nat) (rest : List WaitEntry),
      bytes.length < 255 →
      write addr (b1 :: bytes) ⟨WaitEntry.timeout :: rest, []⟩ =
        some (.error .wouldBlock, ⟨rest, [Event.start addr (bytes.length + 1) false true]⟩)) :=
  ⟨fun chk cnt started budget fuel j hb hj hex =>
    busyWait_block_exit chk cnt started budget fuel 0 j hb (Nat.zero_le j) (by omega) hex,
   write_timeout⟩

/-- C6 witness: a concrete always-blocking poll stream with budget 5 and
elapsed count 7 resolves to WouldBlock within one poll, and a `write`
whose first wait times out returns the WouldBlock failure. -/
theorem busy_wait_timeout_witness :
    busyWaitCycles (fun _ => ChkRes.wouldBlock) (fun _ => 7) 0 5 0 1 = some .wouldBlock ∧
    write 80 [9] ⟨[WaitEntry.timeout], []⟩ =
      some (.error .wouldBlock, ⟨[], [Event.start 80 1 false true]⟩) :=
  ⟨busy_wait_timeout.1 (fun _ => ChkRes.wouldBlock) (fun _ => 7) 0 5 1 0
    (fun _ => rfl) (by decide) (by decide),
   busy_wait_timeout.2 80 9 [] [] (by decide)⟩

/-- C7: if the wait for the first byte of `write` classifies a NACK
status, the call returns the Acknowledge error and the trace contains no
TXDR data-port write at all — in particular none for the second or any
later byte. -/
theorem write_nack_aborts (addr b1 : Nat) (bytes : List Nat) (rest : List WaitEntry)
    (h : bytes.length < 255) :
    write addr (b1 :: bytes) ⟨WaitEntry.isr nackIsr :: rest, []⟩ =
      some (.error (.other .Acknowledge),
        ⟨rest, [Event.start addr (bytes.length + 1) false true]⟩) ∧
    (∀ b, Event.txdrWrite b ∉ [Event.start addr (bytes.length + 1) false true]) := by
  constructor
  · rw [write, if_pos (by simp; omega)]
    simp [emit, write_bytes, wait_byte_write, waitFlag, takeEntry, check_status_flag, nackIsr]
  · intro b
    simp

/-- C7 witness: `write(0x50, [1, 2])` with a NACK resolving the first wait
returns the Acknowledge error and never touches the data port. -/
theorem write_nack_aborts_witness :
    write 80 [1, 2] ⟨[WaitEntry.isr nackIsr], []⟩ =
      some (.error (.other .Acknowledge), ⟨[], [Event.start 80 2 false true]⟩) ∧
    (∀ b, Event.txdrWrite b ∉ [Event.start 80 2 false true]) :=
  write_nack_aborts 80 1 [2] [] (by decide)

/-- C8: `write`, `read`, and `write_read` abort on a buffer of length 0 or
greater than 255 (`none` models the assertion failure), before any
register of the peripheral is read or written — the model emits no event
and consumes no wait on these paths. -/
theorem ops_reject_bad_lengths (addr : Nat) (bytes : List Nat) (len : Nat) (s : St) :
    ((bytes.length = 0 ∨ 255 < bytes.length) →
      write addr bytes s = none ∧ ∀ l, write_read addr bytes l s = none) ∧
    ((len = 0 ∨ 255 < len) →
      read addr len s = none ∧ ∀ bs, write_read addr bs len s = none) := by
  constructor
  · intro h
    constructor
    · rw [write, if_neg (by omega)]
    · intro l
      rw [write_read, if_neg (by omega)]
  · intro h
    constructor
    · rw [read, if_neg (by omega)]
    · intro bs
      rw [write_read]
      by_cases hb : bs.length < 256 ∧ 0 < bs.length
      · rw [if_pos hb, if_neg (by omega)]
      · rw [if_neg hb]

/-- C8 witness: an empty write payload and a 256-byte read buffer both
abort before any hardware interaction. -/
theorem ops_reject_bad_lengths_witness :
    write 80 [] ⟨[], []⟩ = none ∧ read 80 256 ⟨[], []⟩ = none :=
  ⟨((ops_reject_bad_lengths 80 [] 256 ⟨[], []⟩).1 (Or.inl rfl)).1,
   ((ops_reject_bad_lengths 80 [] 256 ⟨[], []⟩).2 (Or.inr (by decide))).1⟩

/-- C9: for every address, payload, buffer length, and environment script,
each public operation's outcome lies in the documented surface — success,
WouldBlock, or one of the four protocol errors Bus, Arbitration,
Acknowledge, Overrun; the Busy (and hidden Extensible) variants are
unreachable from the operation surface. -/
theorem ops_error_surface (addr : Nat) (bytes : List Nat) (len : Nat) (s : St) :
    resultInSurface (write addr bytes s) = true ∧
    resultInSurface (read addr len s) = true ∧
    resultInSurface (write_read addr bytes len s) = true := by
  refine ⟨?_, ?_, ?_⟩
  · rw [write]
    by_cases h : bytes.length < 256 ∧ 0 < bytes.length
    · rw [if_pos h]
      have hsf := write_bytes_surface bytes (emit (.start addr bytes.length false true) s)
      rcases hw : write_bytes bytes (emit (.start addr bytes.length false true) s) with ⟨r, s1⟩
      rw [hw] at hsf
      simp only [resultInSurface, hw]
      exact hsf
    · rw [if_neg h]; rfl
  · rw [read]
    by_cases h : len < 256 ∧ 0 < len
    · rw [if_pos h]
      have hsf := read_bytes_surface len (emit (.start addr len true true) s)
      rcases hw : read_bytes len (emit (.start addr len true true) s) with ⟨r, s1⟩
      rw [hw] at hsf
      simp only [resultInSurface, hw]
      exact hsf
    · rw [if_neg h]; rfl
  · rw [write_read]
    by_cases h1 : bytes.length < 256 ∧ 0 < bytes.length
    · rw [if_pos h1]
      by_cases h2 : len < 256 ∧ 0 < len
      · rw [if_pos h2]
        have hws := write_bytes_surface bytes (emit (.start addr bytes.length false false) s)
        rcases hw : write_bytes bytes (emit (.start addr bytes.length false false) s) with ⟨r, s2⟩
        rw [hw] at hws
        cases r with
        | ok =>
          have hts := waitFlag_surface (fun i => i.tc) (emit .tcWait s2)
          rcases ht : waitFlag (fun i => i.tc) (emit .tcWait s2) with ⟨rt, s4⟩
          rw [ht] at hts
          cases rt with
          | ok =>
            have hrs := read_bytes_surface len (emit (.start addr len true true) s4)
            rcases hr : read_bytes len (emit (.start addr len true true) s4) with ⟨rr, s5⟩
            rw [hr] at hrs
            simp only [hw, ht, resultInSurface, hr]
            exact hrs
          | wouldBlock =>
            simp only [hw, ht, resultInSurface]
            rfl
          | err e =>
            simp only [hw, ht, resultInSurface]
            rw [← chk_op_surface]
            exact hts
        | error e =>
          simp only [hw, resultInSurface]
          exact hws
      · rw [if_neg h2]; rfl
    · rw [if_neg h1]; rfl

/-- C10: for every accepted construction input whose SCL-low/high ceiling
is exactly 1 (bus clock positive and at most twice the target), the
derived SCL-high field is 0, the prescaler ratio is 1 and falls in the
in-range match arm, and `sclh as u8 - 1` underflows on the unsigned zero:
`init` aborts instead of producing timing fields. -/
theorem init_underflow_abort (pclk target : Nat) (ht : target ≠ 0)
    (_hacc : target ≤ 400000)
    (hc : ⌈(pclk : ℚ) / (2 * (target : ℚ))⌉ = 1) :
    init pclk target = none := by
  have hp : pclk ≠ 0 := by
    intro h0
    subst h0
    norm_num at hc
  have hb : baseClkMhz pclk ≠ 0 := by
    unfold baseClkMhz
    exact div_ne_zero (Nat.cast_ne_zero.mpr hp) (by norm_num)
  have hsf : scllField pclk target = some 0 := by
    rw [scllField, if_neg ht, ratio_eq, hc]
    norm_num [u8SatCast]
  simp only [init, hsf, prescField]
  rw [if_neg hp]
  norm_num [div_self hb]

/-- C10 witness: busClock = 2 Hz, target = 1 Hz is accepted at
construction, has ceiling 1, and `init` aborts. -/
theorem init_underflow_abort_witness :
    (1 : Nat) ≤ 400000 ∧ init 2 1 = none :=
  ⟨by norm_num,
   init_underflow_abort 2 1 (by norm_num) (by norm_num) (by norm_num)⟩

end I2cHal
